import Mathlib

/-!
Verification of the Sales-Target-Prediction pipeline (src/app.py).

The development shallowly embeds the parts of the program the claims are
about:

* the month-name table `MONTHS_MAP` and fiscal-year parsing
  `to_fiscal_year_start` (src/app.py lines 35-48, 287-305);
* the monthly-comparison sheet parser `process_monthly_comparison_sheet`
  (lines 307-377);
* the wide-to-long transformer `long_from_wide` (lines 635-690);
* the forecasting engine `fit_forecast` (lines 692-725);
* the per-group resample/fill pipeline (lines 1259-1266);
* the generic header-row detection loop (lines 1087-1150);
* territory canonicalization from
  `process_territory_data_from_yearly_sheets` (lines 429-446).

Modelling conventions:

* Calendar months are represented by their absolute month index
  `12 * year + (month - 1) : Int` where a series is involved, and by a
  `(year, monthNumber)` pair where a single date is assembled.
* Numeric cell/series values are rationals; a pandas `NaN` (null) is
  `Option.none`.  Cell values are modelled after the `pd.to_numeric(...,
  errors = coerce)` coercion that the source applies to every consumed
  cell: a numeric cell is `some q`, a null or non-numeric cell is `none`.
* A Python function that can raise an uncaught exception is embedded with
  an `Option` result, `none` meaning the exception.
* The external statsmodels `ExponentialSmoothing(...).fit().forecast(h)`
  call is out of scope (third-party library); it is passed to
  `fit_forecast` as an oracle argument `fit : Seasonal → Option (List
  (Option ℚ))` that receives the seasonal mode chosen by the source and
  either returns the forecast values (`some`) or raises (`none`).
-/

/-! ### String helpers

The Lean core string functions do not reduce in the kernel, so the string
operations used by the source (`str.strip`, `str.lower`, `str.upper`,
`str.split`, the `in` substring test) are re-implemented on `String.data`.
-/

/-- `pat.isPrefixOf l` on character lists. -/
def chPrefix : List Char → List Char → Bool
  | [], _ => true
  | _ :: _, [] => false
  | a :: as, b :: bs => a == b && chPrefix as bs

/-- substring occurrence test on character lists. -/
def chInfix (pat : List Char) : List Char → Bool
  | [] => chPrefix pat []
  | c :: rest => chPrefix pat (c :: rest) || chInfix pat rest

/-- Python `pat in hay` on strings (substring containment). -/
def containsSub (hay pat : String) : Bool := chInfix pat.data hay.data

/-- Python `str.lower()`. -/
def strLower (s : String) : String := ⟨s.data.map Char.toLower⟩

/-- Python `str.upper()`. -/
def strUpper (s : String) : String := ⟨s.data.map Char.toUpper⟩

/-- Python `str.strip()`. -/
def strStrip (s : String) : String :=
  ⟨((s.data.dropWhile Char.isWhitespace).reverse.dropWhile Char.isWhitespace).reverse⟩

/-- Worker for `pyWords`: accumulates the current word (reversed). -/
def pyWordsAux : List Char → List Char → List String
  | [], acc => if acc.isEmpty then [] else [⟨acc.reverse⟩]
  | c :: rest, acc =>
    if c.isWhitespace then
      if acc.isEmpty then pyWordsAux rest [] else ⟨acc.reverse⟩ :: pyWordsAux rest []
    else pyWordsAux rest (c :: acc)

/-- Python `str.split()` with no argument: split on whitespace runs,
dropping empty pieces. -/
def pyWords (s : String) : List String := pyWordsAux s.data []

/-- Python `any(char.isdigit() for char in s)`. -/
def hasDigit (s : String) : Bool := s.data.any Char.isDigit

/-- Python `'-' in s` for the single hyphen character. -/
def hasHyphen (s : String) : Bool := s.data.any (· == '-')

/-! ### Month table and fiscal-year parsing (src/app.py 35-48, 287-305) -/

/-- `MONTHS_MAP` (src/app.py lines 35-48): month name/abbreviation →
month number. -/
def MONTHS_MAP : List (String × Nat) :=
  [("apr", 4), ("april", 4),
   ("may", 5),
   ("jun", 6), ("june", 6),
   ("jul", 7), ("july", 7),
   ("aug", 8), ("august", 8),
   ("sep", 9), ("sept", 9), ("september", 9),
   ("oct", 10), ("october", 10),
   ("nov", 11), ("november", 11),
   ("dec", 12), ("december", 12),
   ("jan", 1), ("january", 1),
   ("feb", 2), ("february", 2),
   ("mar", 3), ("march", 3)]

/-- Python `MONTHS_MAP.get(key, None)`. -/
def monthsLookup (key : String) : Option Nat :=
  (MONTHS_MAP.find? (fun p => p.1 = key)).map Prod.snd

/-- The `re.search(r'(20\d\d)', s)` step of `to_fiscal_year_start`
(src/app.py line 292): first occurrence of a four-digit token starting
with 20. -/
def yearScan : List Char → Option Int
  | [] => none
  | c0 :: rest =>
    match c0, rest with
    | '2', '0' :: c :: d :: _ =>
      if c.isDigit && d.isDigit then
        some (2000 + 10 * ((c.toNat : Int) - 48) + ((d.toNat : Int) - 48))
      else yearScan rest
    | _, _ => yearScan rest

/-- The `int(float(s))` fallback of `to_fiscal_year_start` (src/app.py
lines 297-299), modelled for unsigned decimal literals (`digits` or
`digits.digits`); other strings fail to parse, as in the source. -/
def parseNumericLike (cs : List Char) : Option Nat :=
  let intPart := cs.takeWhile Char.isDigit
  let rest := cs.dropWhile Char.isDigit
  if intPart.isEmpty then none
  else
    match rest with
    | [] => some (intPart.foldl (fun n c => 10 * n + (c.toNat - 48)) 0)
    | '.' :: fr =>
      if fr.all Char.isDigit then
        some (intPart.foldl (fun n c => 10 * n + (c.toNat - 48)) 0)
      else none
    | _ => none

/-- `to_fiscal_year_start` (src/app.py lines 287-305), reduced to the
starting calendar year it detects (the source returns the timestamp
April 1 of that year; only the year field is consumed downstream). -/
def to_fiscal_year_start (v : String) : Option Int :=
  let s := strStrip v
  match yearScan s.data with
  | some y => some y
  | none =>
    match parseNumericLike s.data with
    | some n =>
      let y : Int := (n : Int)
      some (if y < 2000 then 2000 + y % 100 else y)
    | none => none

/-- Calendar-date assembly shared by the three sheet parsers and
`long_from_wide` (src/app.py lines 350-353, 460-464, 603-607, 657-662):
given the fiscal starting year and a month number, months April-December
stay in the starting year, January-March move to the next year.  The
result is the `(calendarYear, monthNumber)` of the first-of-month date
built by the source. -/
def assembleDate (y : Int) (m : Nat) : Int × Nat :=
  if 4 ≤ m then (y, m) else (y + 1, m)

/-- Claim C1: for every fiscal-year label that parses to a starting
calendar year `Y` and every month number `M` in 1..12, the calendar month
assembled for a record is the first of month `M` in year `Y` when `M ≥ 4`
and the first of month `M` in year `Y + 1` when `M ≤ 3`; in particular
the fiscal label 2020-2021 with month January yields calendar month
2021-01. -/
theorem calendar_assembly_spec :
    (∀ (label : String) (y : Int) (m : Nat),
      to_fiscal_year_start label = some y → 1 ≤ m → m ≤ 12 →
        ((4 ≤ m → assembleDate y m = (y, m)) ∧
         (m ≤ 3 → assembleDate y m = (y + 1, m)))) ∧
    to_fiscal_year_start "2020-2021" = some 2020 ∧
    monthsLookup "january" = some 1 ∧
    assembleDate 2020 1 = (2021, 1) := by
  refine ⟨?_, by decide, by decide, by decide⟩
  intro _ y m _ _ _
  constructor
  · intro h4
    simp [assembleDate, h4]
  · intro h3
    have : ¬ 4 ≤ m := by omega
    simp [assembleDate, this]

/-- Witness for `calendar_assembly_spec`: all hypotheses discharged at the
label 2020-2021 and month January. -/
theorem calendar_assembly_spec_witness :
    to_fiscal_year_start "2020-2021" = some 2020 ∧ 1 ≤ 1 ∧ 1 ≤ 12 ∧
    assembleDate 2020 1 = (2021, 1) :=
  ⟨by decide, by decide, by decide,
    (calendar_assembly_spec.1 "2020-2021" 2020 1 (by decide) (by decide)
      (by decide)).2 (by decide)⟩

/-! ### MonthlySeries and the forecasting engine (src/app.py 692-725)

A `MSeries` is the pandas series handed to `fit_forecast` by the
per-group loop: values indexed by consecutive month indices starting at
`start` (the series has frequency month-start, so the index is gap-free
by construction).  An entry `none` is a `NaN` value.
-/

structure MSeries where
  start : Int
  vals : List (Option ℚ)
deriving DecidableEq

/-- Python `ts.dropna()` restricted to the values (the index plays no
role in the places it is consumed). -/
def dropnaVals (ts : MSeries) : List ℚ := ts.vals.filterMap id

/-- Month index of `ts.index[-1]` (meaningful when the series is
nonempty). -/
def tsLastIdx (ts : MSeries) : Int := ts.start + ts.vals.length - 1

/-- `pd.date_range(s, periods = h, freq = MS)` as month indices. -/
def dateRange (s : Int) (h : Nat) : List Int :=
  (List.range h).map (fun i => s + Int.ofNat i)

/-- Python `ts.get(key, np.nan)`: the stored value at month index `k`,
`none` when the index is absent or the stored value is `NaN`. -/
def tsGet (ts : MSeries) (k : Int) : Option ℚ :=
  if ts.start ≤ k ∧ k < ts.start + ts.vals.length then
    (ts.vals.get? (k - ts.start).toNat).getD none
  else none

/-- The seasonal mode argument passed to `ExponentialSmoothing`. -/
inductive Seasonal where
  | add
  | mul
deriving DecidableEq

/-- `has_zero_or_neg = (ts <= 0).any()` (src/app.py line 702): a pandas
comparison leaves `False` at `NaN` entries, so this is: some non-null
value is ≤ 0. -/
def hasZeroOrNeg (ts : MSeries) : Bool :=
  ts.vals.any (fun v => match v with | some q => decide (q ≤ 0) | none => false)

/-- `seasonal = 'add' if has_zero_or_neg else 'mul'` (src/app.py
line 703). -/
def seasonalChoice (ts : MSeries) : Seasonal :=
  if hasZeroOrNeg ts then Seasonal.add else Seasonal.mul

/-- The result of `fit_forecast`: the forecast series (month indices and
values) plus whether a fitted model handle was returned (`model`
vs `None`). -/
structure ForecastResult where
  dates : List Int
  vals : List (Option ℚ)
  model : Bool
deriving DecidableEq

/-- One iteration of the seasonal-naive fallback loop (src/app.py lines
719-724) at forecast month `dt`; the outer `Option` is exception
tracking: `ts.iloc[-1]` on an empty series raises, every other step is
total. -/
def snaiveOne (ts : MSeries) (dt : Int) : Option (Option ℚ) :=
  match tsGet ts (dt - 12) with
  | some v => some (some v)
  | none =>
    if 12 ≤ ts.vals.length then
      some ((ts.vals.get? (ts.vals.length - 12)).getD none)
    else ts.vals.getLast?

/-- The seasonal-naive fallback loop over the whole forecast index. -/
def snaiveVals (ts : MSeries) : List Int → Option (List (Option ℚ))
  | [] => some []
  | dt :: rest =>
    match snaiveOne ts dt, snaiveVals ts rest with
    | some v, some vs => some (v :: vs)
    | _, _ => none

/-- `fit_forecast` (src/app.py lines 692-725).  `now` is the month index
of `pd.Timestamp.now()` (used only for an empty series); `fit` is the
external `ExponentialSmoothing(...).fit(...).forecast(horizon)` oracle,
invoked with the seasonal mode the source selects, returning `none` when
the library call raises.  The result is `none` exactly when an uncaught
exception escapes. -/
def fit_forecast (ts : MSeries) (horizon : Nat) (now : Int)
    (fit : Seasonal → Option (List (Option ℚ))) : Option ForecastResult :=
  let obs := dropnaVals ts
  if obs.sum = 0 ∨ obs.dedup.length ≤ 1 then
    let last := obs.getLast?.getD 0
    let startDate := if 0 < ts.vals.length then tsLastIdx ts else now
    some ⟨dateRange (startDate + 1) horizon, List.replicate horizon (some last), false⟩
  else
    let fcIndex := dateRange (tsLastIdx ts + 1) horizon
    match fit (seasonalChoice ts) with
    | some l =>
      if l.length = horizon then some ⟨fcIndex, l, true⟩
      else (snaiveVals ts fcIndex).map (fun vs => ⟨fcIndex, vs, false⟩)
    | none => (snaiveVals ts fcIndex).map (fun vs => ⟨fcIndex, vs, false⟩)

/-- The seasonal-naive fallback rule as the specification states it: the
series value at the same calendar month one year earlier; if that index
is absent, the value 12 observations from the end when the series has at
least 12 observations, otherwise the last observed value. -/
def seasonalNaiveRule (ts : MSeries) (dt : Int) : Option ℚ :=
  match tsGet ts (dt - 12) with
  | some v => some v
  | none =>
    if 12 ≤ ts.vals.length then (ts.vals.get? (ts.vals.length - 12)).getD none
    else (ts.vals.get? (ts.vals.length - 1)).getD none

lemma getLast?_of_ne_nil {α : Type} (l : List α) (d : α) (h : l ≠ []) :
    l.getLast? = some ((l.get? (l.length - 1)).getD d) := by
  have hlen : l.length - 1 < l.length := by
    have : 0 < l.length := List.length_pos.mpr h
    omega
  rw [List.getLast?_eq_getElem?, List.get?_eq_getElem?, List.getElem?_eq_getElem hlen]
  simp

lemma snaiveOne_eq (ts : MSeries) (dt : Int) (hv : ts.vals ≠ []) :
    snaiveOne ts dt = some (seasonalNaiveRule ts dt) := by
  unfold snaiveOne seasonalNaiveRule
  cases htg : tsGet ts (dt - 12) with
  | some v => rfl
  | none =>
    by_cases h12 : 12 ≤ ts.vals.length
    · simp [h12]
    · simp [h12, getLast?_of_ne_nil ts.vals none hv]

lemma snaiveVals_eq (ts : MSeries) (hv : ts.vals ≠ []) (dts : List Int) :
    snaiveVals ts dts = some (dts.map (seasonalNaiveRule ts)) := by
  induction dts with
  | nil => rfl
  | cons dt rest ih => simp [snaiveVals, snaiveOne_eq ts dt hv, ih]

lemma length_dateRange (s : Int) (h : Nat) : (dateRange s h).length = h := by
  rw [dateRange, List.length_map, List.length_range]

lemma nondeg_vals_ne_nil (ts : MSeries)
    (hnd : ¬ ((dropnaVals ts).sum = 0 ∨ (dropnaVals ts).dedup.length ≤ 1)) :
    ts.vals ≠ [] := by
  intro hv
  exact hnd (Or.inl (by simp [dropnaVals, hv]))

/-- Claim C4: whenever the series' non-null values sum to zero or have at
most one distinct value, `fit_forecast` returns a flat repeat of the last
observed value (0 for an empty series) for all `h` future months and fits
no model. -/
theorem fit_forecast_degenerate (ts : MSeries) (h : Nat) (now : Int)
    (fit : Seasonal → Option (List (Option ℚ)))
    (hd : (dropnaVals ts).sum = 0 ∨ (dropnaVals ts).dedup.length ≤ 1) :
    fit_forecast ts h now fit =
      some ⟨dateRange ((if 0 < ts.vals.length then tsLastIdx ts else now) + 1) h,
            List.replicate h (some ((dropnaVals ts).getLast?.getD 0)), false⟩ := by
  simp only [fit_forecast]
  rw [if_pos hd]

/-- Witness for `fit_forecast_degenerate`: a series of twelve zeros at
horizon 3 satisfies the degeneracy guard and yields exactly three zero
forecasts with no model handle. -/
theorem fit_forecast_degenerate_witness :
    ((dropnaVals ⟨0, [some 0, some 0, some 0, some 0, some 0, some 0, some 0,
        some 0, some 0, some 0, some 0, some 0]⟩).sum = 0 ∨
      (dropnaVals ⟨0, [some 0, some 0, some 0, some 0, some 0, some 0, some 0,
        some 0, some 0, some 0, some 0, some 0]⟩).dedup.length ≤ 1) ∧
    fit_forecast ⟨0, [some 0, some 0, some 0, some 0, some 0, some 0, some 0,
        some 0, some 0, some 0, some 0, some 0]⟩ 3 0 (fun _ => none) =
      some ⟨[12, 13, 14], [some 0, some 0, some 0], false⟩ := by
  have hd : ((dropnaVals ⟨0, [some 0, some 0, some 0, some 0, some 0, some 0,
      some 0, some 0, some 0, some 0, some 0, some 0]⟩).sum = 0 ∨
      (dropnaVals ⟨0, [some 0, some 0, some 0, some 0, some 0, some 0, some 0,
        some 0, some 0, some 0, some 0, some 0]⟩).dedup.length ≤ 1) :=
    Or.inr (by decide)
  exact ⟨hd, (fit_forecast_degenerate _ 3 0 _ hd).trans (by decide)⟩

/-- Claim C2: for every gap-free monthly series and horizon `h ≥ 1`,
`fit_forecast` returns without raising, and the forecast has length
exactly `h` with consecutive monthly dates starting one month after the
last observed month (when the series is nonempty; an empty series starts
one month after the current timestamp, as in the source). -/
theorem fit_forecast_total (ts : MSeries) (h : Nat) (now : Int)
    (fit : Seasonal → Option (List (Option ℚ))) (_hh : 1 ≤ h) :
    ∃ r, fit_forecast ts h now fit = some r ∧ r.dates.length = h ∧
      r.vals.length = h ∧ (∃ s, r.dates = dateRange s h) ∧
      (ts.vals ≠ [] → r.dates = dateRange (tsLastIdx ts + 1) h) := by
  by_cases hd : (dropnaVals ts).sum = 0 ∨ (dropnaVals ts).dedup.length ≤ 1
  · refine ⟨_, fit_forecast_degenerate ts h now fit hd, ?_, ?_, ⟨_, rfl⟩, ?_⟩
    · exact length_dateRange _ _
    · exact List.length_replicate _ _
    · intro hv
      rw [if_pos (List.length_pos.mpr hv)]
  · have hv : ts.vals ≠ [] := nondeg_vals_ne_nil ts hd
    simp only [fit_forecast]
    rw [if_neg hd]
    cases hfit : fit (seasonalChoice ts) with
    | none =>
      rw [snaiveVals_eq ts hv]
      refine ⟨_, rfl, length_dateRange _ _, ?_, ⟨_, rfl⟩, fun _ => rfl⟩
      rw [List.length_map, length_dateRange]
    | some l =>
      dsimp only
      by_cases hl : l.length = h
      · rw [if_pos hl]
        exact ⟨_, rfl, length_dateRange _ _, hl, ⟨_, rfl⟩, fun _ => rfl⟩
      · rw [if_neg hl, snaiveVals_eq ts hv]
        refine ⟨_, rfl, length_dateRange _ _, ?_, ⟨_, rfl⟩, fun _ => rfl⟩
        rw [List.length_map, length_dateRange]

/-- Witness for `fit_forecast_total` at a two-observation series, horizon
2, with a fit oracle that always raises. -/
theorem fit_forecast_total_witness :
    1 ≤ 2 ∧
    ∃ r, fit_forecast ⟨0, [some 1, some 2]⟩ 2 0 (fun _ => none) = some r ∧
      r.dates.length = 2 ∧ r.vals.length = 2 ∧ (∃ s, r.dates = dateRange s 2) ∧
      ((⟨0, [some 1, some 2]⟩ : MSeries).vals ≠ [] →
        r.dates = dateRange (tsLastIdx ⟨0, [some 1, some 2]⟩ + 1) 2) :=
  ⟨by decide, fit_forecast_total ⟨0, [some 1, some 2]⟩ 2 0 (fun _ => none) (by decide)⟩

lemma hasZeroOrNeg_iff (ts : MSeries) :
    hasZeroOrNeg ts = true ↔ ∃ q ∈ dropnaVals ts, q ≤ 0 := by
  simp only [hasZeroOrNeg, dropnaVals, List.any_eq_true, List.mem_filterMap, id]
  constructor
  · rintro ⟨v, hv, hq⟩
    cases v with
    | none => simp at hq
    | some q =>
      simp only [decide_eq_true_eq] at hq
      exact ⟨q, ⟨some q, hv, rfl⟩, hq⟩
  · rintro ⟨q, ⟨v, hv, hid⟩, hq⟩
    refine ⟨v, hv, ?_⟩
    cases v with
    | none => simp at hid
    | some p =>
      simp only [Option.some.injEq] at hid
      subst hid
      simpa using hq

/-- Claim C5: in the model-fitting branch the seasonal component is
additive exactly when some observed (non-null) value of the series is
≤ 0, and multiplicative exactly when all observed values are strictly
positive. -/
theorem seasonal_choice_spec (ts : MSeries)
    (_hnd : ¬ ((dropnaVals ts).sum = 0 ∨ (dropnaVals ts).dedup.length ≤ 1)) :
    (seasonalChoice ts = Seasonal.add ↔ ∃ q ∈ dropnaVals ts, q ≤ 0) ∧
    (seasonalChoice ts = Seasonal.mul ↔ ∀ q ∈ dropnaVals ts, 0 < q) := by
  constructor
  · unfold seasonalChoice
    by_cases hz : hasZeroOrNeg ts
    · rw [if_pos hz]
      exact ⟨fun _ => (hasZeroOrNeg_iff ts).mp hz, fun _ => rfl⟩
    · rw [if_neg hz]
      constructor
      · intro hcontra
        exact absurd hcontra (by decide)
      · intro hex
        exact absurd ((hasZeroOrNeg_iff ts).mpr hex) hz
  · unfold seasonalChoice
    by_cases hz : hasZeroOrNeg ts
    · rw [if_pos hz]
      constructor
      · intro hcontra
        exact absurd hcontra (by decide)
      · intro hall
        obtain ⟨q, hq, hle⟩ := (hasZeroOrNeg_iff ts).mp hz
        exact absurd (hall q hq) (not_lt.mpr hle)
    · rw [if_neg hz]
      constructor
      · intro _ q hq
        by_contra hnp
        exact hz ((hasZeroOrNeg_iff ts).mpr ⟨q, hq, le_of_not_lt hnp⟩)
      · intro _
        rfl

/-- Witness for `seasonal_choice_spec` at a strictly positive
two-observation series (multiplicative mode). -/
theorem seasonal_choice_spec_witness :
    (¬ (((dropnaVals ⟨0, [some 1, some 2]⟩).sum = 0) ∨
        (dropnaVals ⟨0, [some 1, some 2]⟩).dedup.length ≤ 1)) ∧
    ((seasonalChoice ⟨0, [some 1, some 2]⟩ = Seasonal.add ↔
        ∃ q ∈ dropnaVals ⟨0, [some 1, some 2]⟩, q ≤ 0) ∧
     (seasonalChoice ⟨0, [some 1, some 2]⟩ = Seasonal.mul ↔
        ∀ q ∈ dropnaVals ⟨0, [some 1, some 2]⟩, 0 < q)) := by
  have hobs : dropnaVals ⟨0, [some 1, some 2]⟩ = [1, 2] := by decide
  have hnd : ¬ (((dropnaVals ⟨0, [some 1, some 2]⟩).sum = 0) ∨
      (dropnaVals ⟨0, [some 1, some 2]⟩).dedup.length ≤ 1) := by
    rw [hobs]
    norm_num [List.sum_cons, List.dedup_cons_of_not_mem]
  exact ⟨hnd, seasonal_choice_spec ⟨0, [some 1, some 2]⟩ hnd⟩

/-- Claim C6: when the exponential-smoothing fit raises, `fit_forecast`
recovers locally (no exception escapes) and returns the seasonal-naive
forecast with no model handle: each future month gets the value of the
same calendar month one year earlier, or, when that index is absent, the
value 12 observations from the end (series length ≥ 12) or the last
observed value (shorter series). -/
theorem fit_forecast_fallback (ts : MSeries) (h : Nat) (now : Int)
    (fit : Seasonal → Option (List (Option ℚ)))
    (hnd : ¬ ((dropnaVals ts).sum = 0 ∨ (dropnaVals ts).dedup.length ≤ 1))
    (hfit : fit (seasonalChoice ts) = none) :
    fit_forecast ts h now fit =
      some ⟨dateRange (tsLastIdx ts + 1) h,
            (dateRange (tsLastIdx ts + 1) h).map (seasonalNaiveRule ts),
            false⟩ := by
  have hv : ts.vals ≠ [] := nondeg_vals_ne_nil ts hnd
  simp only [fit_forecast]
  rw [if_neg hnd, hfit, snaiveVals_eq ts hv]
  rfl

/-- Witness for `fit_forecast_fallback`: a two-observation series at
horizon 1 with a raising fit oracle falls back to the last observed
value. -/
theorem fit_forecast_fallback_witness :
    (¬ (((dropnaVals ⟨0, [some 1, some 2]⟩).sum = 0) ∨
        (dropnaVals ⟨0, [some 1, some 2]⟩).dedup.length ≤ 1)) ∧
    (fun _ => (none : Option (List (Option ℚ)))) (seasonalChoice ⟨0, [some 1, some 2]⟩) = none ∧
    fit_forecast ⟨0, [some 1, some 2]⟩ 1 0 (fun _ => none) =
      some ⟨[2], [some 2], false⟩ := by
  have hobs : dropnaVals ⟨0, [some 1, some 2]⟩ = [1, 2] := by decide
  have hnd : ¬ (((dropnaVals ⟨0, [some 1, some 2]⟩).sum = 0) ∨
      (dropnaVals ⟨0, [some 1, some 2]⟩).dedup.length ≤ 1) := by
    rw [hobs]
    norm_num [List.sum_cons, List.dedup_cons_of_not_mem]
  refine ⟨hnd, rfl, ?_⟩
  exact (fit_forecast_fallback ⟨0, [some 1, some 2]⟩ 1 0 (fun _ => none) hnd rfl).trans
    (by decide)

/-! ### Wide-to-long transformation (src/app.py 635-690)

A `WRow` is one row of the wide table as `long_from_wide` consumes it:
the area / state / year cells and the month-column cells.  Month cells
carry the value `pd.to_numeric(raw, errors = coerce)` would produce
(`none` for a null or non-numeric cell).  The `hasArea`, `hasState`,
`hasYear` flags model whether `area_col` / `state_col` / `year_col` were
detected (`None` in the source).
-/

structure WRow where
  area : Option String
  state : Option String
  year : String
  cells : List (String × Option ℚ)
deriving DecidableEq

/-- Cell access `row[mcol]` on the modelled row. -/
def lookupCell (cells : List (String × Option ℚ)) (k : String) : Option ℚ :=
  ((cells.find? (fun p => p.1 = k)).map Prod.snd).getD none

/-- One long-format record as built by `long_from_wide` (src/app.py lines
666-674); `date` is the `(calendarYear, monthNumber)` pair of the
first-of-month timestamp, `none` for `NaT`. -/
structure LRec where
  area : Option String
  state : Option String
  fy : Option String
  monthName : String
  date : Option (Int × Nat)
  month : Nat
  sales : Option ℚ
deriving DecidableEq

/-- Month-number resolution for a month column name (src/app.py lines
643-654): the last whitespace-separated token of the lowercased name,
else the first token found in `MONTHS_MAP`; a name with no token at all
cannot arise from `guess_month_cols` and yields no record. -/
def monthNumOfCol (mcol : String) : Option Nat :=
  let toks := pyWords (strLower (strStrip mcol))
  match toks.getLast? with
  | some mkey =>
    match monthsLookup mkey with
    | some n => some n
    | none => toks.findSome? monthsLookup
  | none => none

/-- Date re-inference pass of `long_from_wide` (src/app.py lines
678-689): records that still miss a date get one rebuilt from their
fiscal-year label and month number. -/
def inferDate (r : LRec) : LRec :=
  if r.date.isNone then
    match r.fy.bind to_fiscal_year_start with
    | some y => { r with date := some (assembleDate y r.month) }
    | none => r
  else r

/-- The record-building loop of `long_from_wide` (src/app.py lines
637-674), before the `dropna` on sales. -/
def lfwParts (rows : List WRow) (hasArea hasState hasYear : Bool)
    (monthCols : List String) : List LRec :=
  rows.flatMap (fun row =>
    let fyStart := if hasYear then to_fiscal_year_start row.year else none
    monthCols.filterMap (fun mcol =>
      (monthNumOfCol mcol).map (fun mnum =>
        { area := if hasArea then row.area else some "All"
          state := if hasState then row.state else none
          fy := if hasYear then some row.year else none
          monthName := mcol
          date := fyStart.map (fun y => assembleDate y mnum)
          month := mnum
          sales := lookupCell row.cells mcol })))

/-- `long_from_wide` (src/app.py lines 635-690). -/
def long_from_wide (rows : List WRow) (hasArea hasState hasYear : Bool)
    (monthCols : List String) : List LRec :=
  let long := (lfwParts rows hasArea hasState hasYear monthCols).filter
    (fun r => r.sales.isSome)
  if hasYear && long.any (fun r => r.date.isNone) then long.map inferDate
  else long

/-- Claim C3 counterexample: a row whose April cell holds the numeric
value 0 — the claim says a zero-valued cell produces no record, but
`long_from_wide` (which has no zero filter, unlike the specialized sheet
parsers) emits a record with sales 0. -/
theorem long_from_wide_keeps_zero :
    long_from_wide [⟨some "AREA1", none, "2018-2019", [("April", some 0)]⟩]
        true false true ["April"] =
      [⟨some "AREA1", none, some "2018-2019", "April", some (2018, 4), 4,
        some 0⟩] := by
  decide

/-- Claim C3 (amended): in `long_from_wide`, every month cell whose value
is null or non-numeric produces no record — every emitted record carries
a numeric sales value — while a cell holding exactly zero is kept (the
zero filter exists only in the specialized sheet parsers). -/
lemma inferDate_sales (r : LRec) : (inferDate r).sales = r.sales := by
  unfold inferDate
  by_cases hdn : r.date.isNone
  · rw [if_pos hdn]
    cases hfy : r.fy.bind to_fiscal_year_start
    · rfl
    · rfl
  · rw [if_neg hdn]

theorem long_from_wide_sales_numeric (rows : List WRow)
    (hasArea hasState hasYear : Bool) (monthCols : List String) :
    ∀ rec ∈ long_from_wide rows hasArea hasState hasYear monthCols,
      rec.sales.isSome := by
  intro rec hrec
  simp only [long_from_wide] at hrec
  by_cases hc : (hasYear &&
      ((lfwParts rows hasArea hasState hasYear monthCols).filter
        (fun r => r.sales.isSome)).any (fun r => r.date.isNone)) = true
  · rw [if_pos hc] at hrec
    obtain ⟨r0, hr0, rfl⟩ := List.mem_map.mp hrec
    rw [inferDate_sales]
    exact (List.mem_filter.mp hr0).2
  · rw [if_neg hc] at hrec
    exact (List.mem_filter.mp hrec).2

/-- Witness for `long_from_wide_sales_numeric`: the single record of the
zero-cell row carries a numeric sales value. -/
theorem long_from_wide_sales_numeric_witness :
    (⟨some "AREA1", none, some "2018-2019", "April", some (2018, 4), 4,
        some 0⟩ : LRec) ∈
      long_from_wide [⟨some "AREA1", none, "2018-2019", [("April", some 0)]⟩]
        true false true ["April"] ∧
    (⟨some "AREA1", none, some "2018-2019", "April", some (2018, 4), 4,
        some 0⟩ : LRec).sales.isSome :=
  ⟨by decide,
    long_from_wide_sales_numeric
      [⟨some "AREA1", none, "2018-2019", [("April", some 0)]⟩]
      true false true ["April"] _ (by decide)⟩

/-! ### Per-group resampling (src/app.py 1259-1266)

The per-group forecast loop receives, for one group key, the
(date, summed sales) pairs produced by `groupby` — distinct month
indices in increasing order — and builds the series handed to
`fit_forecast` via `asfreq(MS)`, `ffill`, `fillna(0.0)`.
-/

/-- `gdf.set_index(Date).asfreq(MS)`: reindex onto the consecutive
monthly grid from the first to the last observed month; absent months
become `NaN`. -/
def asfreqMS (pts : List (Int × ℚ)) : MSeries :=
  match pts.head?, pts.getLast? with
  | some p0, some p1 =>
    ⟨p0.1,
      (List.range (p1.1 - p0.1 + 1).toNat).map (fun i =>
        (pts.find? (fun p => p.1 = p0.1 + Int.ofNat i)).map Prod.snd)⟩
  | _, _ => ⟨0, []⟩

/-- `Series.ffill()`: forward-fill, carrying the most recent non-null
value. -/
def ffillAux : Option ℚ → List (Option ℚ) → List (Option ℚ)
  | _, [] => []
  | prev, none :: t => prev :: ffillAux prev t
  | _, some q :: t => some q :: ffillAux (some q) t

/-- `if ts.isna().any(): ts = ts.ffill().fillna(0.0)` (src/app.py lines
1264-1265); `fillna` turns every remaining null into the numeric 0. -/
def fillGaps (s : MSeries) : MSeries :=
  if s.vals.any (fun v => v.isNone) then
    ⟨s.start, (ffillAux none s.vals).map (fun v => some (v.getD 0))⟩
  else s

/-- The full series construction of the per-group loop. -/
def buildGroupSeries (pts : List (Int × ℚ)) : MSeries :=
  fillGaps (asfreqMS pts)

lemma length_ffillAux (prev : Option ℚ) (l : List (Option ℚ)) :
    (ffillAux prev l).length = l.length := by
  induction l generalizing prev with
  | nil => rfl
  | cons v t ih =>
    cases v with
    | none => simpa [ffillAux] using ih prev
    | some q => simpa [ffillAux] using ih (some q)

lemma fillGaps_start (s : MSeries) : (fillGaps s).start = s.start := by
  unfold fillGaps
  by_cases hc : s.vals.any (fun v => v.isNone) = true
  · rw [if_pos hc]
  · rw [if_neg hc]

lemma fillGaps_length (s : MSeries) :
    (fillGaps s).vals.length = s.vals.length := by
  unfold fillGaps
  by_cases hc : s.vals.any (fun v => v.isNone) = true
  · rw [if_pos hc]
    simp [length_ffillAux]
  · rw [if_neg hc]

lemma fillGaps_isSome (s : MSeries) :
    ∀ v ∈ (fillGaps s).vals, v.isSome := by
  unfold fillGaps
  by_cases hc : s.vals.any (fun v => v.isNone) = true
  · rw [if_pos hc]
    intro v hv
    obtain ⟨w, _, rfl⟩ := List.mem_map.mp hv
    rfl
  · rw [if_neg hc]
    intro v hv
    by_contra hns
    have : v.isNone := by
      cases v
      · rfl
      · exact absurd rfl hns
    exact hc (List.any_eq_true.mpr ⟨v, hv, this⟩)

/-- Claim C7: the per-group series built by reindexing to month-start
frequency, forward-filling, then zero-filling has a defined (non-null)
numeric value at every month between the group's minimum and maximum
observed months, with no missing months in between.  The hypotheses
record that the grouped input is nonempty with increasing distinct dates
(`groupby` output), `lo`/`hi` being its first and last observed months
and hence its minimum and maximum. -/
theorem buildGroupSeries_gapfree (pts : List (Int × ℚ)) (lo hi : Int)
    (hlo : pts.head?.map Prod.fst = some lo)
    (hhi : pts.getLast?.map Prod.fst = some hi)
    (_hminmax : ∀ p ∈ pts, lo ≤ p.1 ∧ p.1 ≤ hi) :
    (buildGroupSeries pts).start = lo ∧
    (buildGroupSeries pts).vals.length = (hi - lo + 1).toNat ∧
    (∀ v ∈ (buildGroupSeries pts).vals, v.isSome) ∧
    (∀ k : Int, lo ≤ k → k ≤ hi →
      ∃ q : ℚ, ((buildGroupSeries pts).vals.get? (k - lo).toNat) = some (some q)) := by
  obtain ⟨p0, hp0⟩ : ∃ p0, pts.head? = some p0 := by
    cases hh : pts.head? with
    | none => rw [hh] at hlo; simp at hlo
    | some p => exact ⟨p, rfl⟩
  obtain ⟨p1, hp1⟩ : ∃ p1, pts.getLast? = some p1 := by
    cases hh : pts.getLast? with
    | none => rw [hh] at hhi; simp at hhi
    | some p => exact ⟨p, rfl⟩
  have hlo2 : p0.1 = lo := by rw [hp0] at hlo; simpa using hlo
  have hhi2 : p1.1 = hi := by rw [hp1] at hhi; simpa using hhi
  have hbase : asfreqMS pts =
      ⟨p0.1, (List.range (p1.1 - p0.1 + 1).toNat).map (fun i =>
        (pts.find? (fun p => p.1 = p0.1 + Int.ofNat i)).map Prod.snd)⟩ := by
    unfold asfreqMS
    rw [hp0, hp1]
  have hstart : (buildGroupSeries pts).start = lo := by
    unfold buildGroupSeries
    rw [fillGaps_start, hbase, hlo2]
  have hlen : (buildGroupSeries pts).vals.length = (hi - lo + 1).toNat := by
    unfold buildGroupSeries
    rw [fillGaps_length, hbase]
    simp [hlo2, hhi2]
  have hsome : ∀ v ∈ (buildGroupSeries pts).vals, v.isSome :=
    fillGaps_isSome (asfreqMS pts)
  refine ⟨hstart, hlen, hsome, ?_⟩
  intro k hk1 hk2
  have hidx : (k - lo).toNat < (buildGroupSeries pts).vals.length := by
    rw [hlen]
    omega
  obtain ⟨v, hv⟩ : ∃ v, (buildGroupSeries pts).vals.get?
      (k - lo).toNat = some v := by
    rw [List.get?_eq_getElem?, List.getElem?_eq_getElem hidx]
    exact ⟨_, rfl⟩
  have hmem : v ∈ (buildGroupSeries pts).vals := by
    have := List.get?_mem hv
    exact this
  obtain ⟨q, hq⟩ := Option.isSome_iff_exists.mp (hsome v hmem)
  exact ⟨q, by rw [hv, hq]⟩

/-- Witness for `buildGroupSeries_gapfree`: a two-point group with an
interior one-month gap. -/
theorem buildGroupSeries_gapfree_witness :
    ([((0 : Int), (5 : ℚ)), (2, 7)].head?.map Prod.fst = some 0) ∧
    ([((0 : Int), (5 : ℚ)), (2, 7)].getLast?.map Prod.fst = some 2) ∧
    (∀ p ∈ [((0 : Int), (5 : ℚ)), (2, 7)], 0 ≤ p.1 ∧ p.1 ≤ 2) ∧
    ((buildGroupSeries [((0 : Int), (5 : ℚ)), (2, 7)]).start = 0 ∧
     (buildGroupSeries [((0 : Int), (5 : ℚ)), (2, 7)]).vals.length =
       ((2 : Int) - 0 + 1).toNat ∧
     (∀ v ∈ (buildGroupSeries [((0 : Int), (5 : ℚ)), (2, 7)]).vals, v.isSome) ∧
     (∀ k : Int, 0 ≤ k → k ≤ 2 →
       ∃ q : ℚ, ((buildGroupSeries [((0 : Int), (5 : ℚ)), (2, 7)]).vals.get?
         (k - 0).toNat) = some (some q))) :=
  ⟨by decide, by decide, by decide,
    buildGroupSeries_gapfree [((0 : Int), (5 : ℚ)), (2, 7)] 0 2
      (by decide) (by decide) (by decide)⟩

/-! ### Generic header-row detection (src/app.py 1087-1150)

A `Sheet` models one raw sheet: `rows` is the initially read table
(cells as text, as the brute-force scan consumes them via
`astype(str)`), and `headerCols` gives the column names obtained by
re-reading the sheet with a given header row (`none` when that read
raises, matching the `try/except: continue`).
-/

structure Sheet where
  rows : List (List String)
  headerCols : Nat → Option (List String)

/-- `target_rows = [6, 8, 5, 7, 9, 10]` (src/app.py line 1091). -/
def targetRows : List Nat := [6, 8, 5, 7, 9, 10]

/-- `expected_months` (src/app.py lines 1106, 1138). -/
def expectedMonths : List String :=
  ["April", "May", "June", "July", "August", "September", "October",
   "November", "December", "January", "February", "March"]

/-- Lowercase month names of the brute-force cell scan (src/app.py
line 1125). -/
def scanMonths : List String :=
  ["april", "may", "june", "july", "august", "september", "october",
   "november", "december", "january", "february", "march"]

/-- Number of re-read columns exactly equal to an expected month name
(src/app.py lines 1105-1110, 1136-1141). -/
def monthColCount (S : Sheet) (r : Nat) : Nat :=
  match S.headerCols r with
  | some cols => (cols.filter (fun c => expectedMonths.contains c)).length
  | none => 0

/-- One candidate header row qualifies: it is inside the sheet, the
re-read succeeds, and at least 8 columns match month names (src/app.py
lines 1093-1113). -/
def candidateOk (S : Sheet) (r : Nat) : Bool :=
  decide (r < S.rows.length) &&
    (match S.headerCols r with
     | some cols =>
       decide (8 ≤ (cols.filter (fun c => expectedMonths.contains c)).length)
     | none => false)

/-- The candidate loop: first qualifying row of `target_rows`. -/
def candidatePhase (S : Sheet) : Option Nat := targetRows.find? (candidateOk S)

/-- Number of cells of raw row `i` whose lowercased text contains a month
name (src/app.py lines 1122-1126). -/
def rowCellMonthCount (S : Sheet) (i : Nat) : Nat :=
  ((S.rows.getD i []).filter
    (fun cell => scanMonths.any (fun m => containsSub (strLower cell) m))).length

/-- One brute-force scan row qualifies: at least 8 cells contain a month
substring, and re-reading with that header row verifies at least 8 exact
month columns (src/app.py lines 1121-1147). -/
def bruteOk (S : Sheet) (i : Nat) : Bool :=
  decide (8 ≤ rowCellMonthCount S i) &&
    (match S.headerCols i with
     | some cols =>
       decide (8 ≤ (cols.filter (fun c => expectedMonths.contains c)).length)
     | none => false)

/-- The brute-force scan over the first 20 rows (src/app.py line 1121). -/
def brutePhase (S : Sheet) : Option Nat :=
  (List.range (min 20 S.rows.length)).find? (bruteOk S)

/-- Header detection for a generic sheet: the candidate loop, then the
brute-force scan. -/
def detectHeaderRow (S : Sheet) : Option Nat :=
  match candidatePhase S with
  | some r => some r
  | none => brutePhase S

/-- `if df_processed is None: continue` (src/app.py lines 1149-1150): a
sheet with no detected header contributes no records; `extract` stands
for the rest of the generic path run on the detected header row. -/
def processGenericSheet (S : Sheet) (extract : Nat → List LRec) : List LRec :=
  match detectHeaderRow S with
  | some r => extract r
  | none => []

lemma find?_first {α : Type} (p : α → Bool) (pre : List α) (r : α)
    (post : List α) (hpre : ∀ x ∈ pre, p x = false) (hr : p r = true) :
    List.find? p (pre ++ r :: post) = some r := by
  induction pre with
  | nil => simpa using List.find?_cons_of_pos post hr
  | cons a t ih =>
    have ha : p a = false := hpre a (List.mem_cons_self a t)
    rw [List.cons_append, List.find?_cons_of_neg _ (by simp [ha])]
    exact ih (fun x hx => hpre x (List.mem_cons_of_mem a hx))

/-- Claim C8: generic header detection accepts the first candidate header
row with at least 8 exact month-name columns (a candidate with 7 or fewer
is passed over), falls through to the brute-force scan of the first 20
rows for a row with at least 8 month-substring cells when no candidate
qualifies, and a sheet where no strategy succeeds yields no records. -/
theorem header_detection_spec (S : Sheet) (extract : Nat → List LRec) :
    (∀ r, detectHeaderRow S = some r →
      (candidatePhase S = some r ∧ candidateOk S r = true) ∨
      (candidatePhase S = none ∧ brutePhase S = some r ∧ bruteOk S r = true)) ∧
    (∀ pre r post, targetRows = pre ++ r :: post →
      (∀ x ∈ pre, candidateOk S x = false) → candidateOk S r = true →
      detectHeaderRow S = some r) ∧
    ((∀ r ∈ targetRows, candidateOk S r = false) →
      detectHeaderRow S = brutePhase S) ∧
    (detectHeaderRow S = none → processGenericSheet S extract = []) := by
  refine ⟨?_, ?_, ?_, ?_⟩
  · intro r hdet
    unfold detectHeaderRow at hdet
    cases hc : candidatePhase S with
    | some r2 =>
      rw [hc] at hdet
      left
      have hr2 : r2 = r := by simpa using hdet
      subst hr2
      exact ⟨rfl, List.find?_some
        (show targetRows.find? (candidateOk S) = some r2 from hc)⟩
    | none =>
      rw [hc] at hdet
      right
      exact ⟨rfl, hdet, List.find?_some
        (show (List.range (min 20 S.rows.length)).find? (bruteOk S) = some r
          from hdet)⟩
  · intro pre r post hsplit hpre hr
    unfold detectHeaderRow candidatePhase
    rw [hsplit, find?_first (candidateOk S) pre r post hpre hr]
  · intro hall
    unfold detectHeaderRow candidatePhase
    rw [List.find?_eq_none.mpr (fun x hx => by simp [hall x hx])]
  · intro hdet
    unfold processGenericSheet
    rw [hdet]

/-- Witness for `header_detection_spec`: a synthetic sheet whose re-read
at row 6 presents exactly 8 month columns is accepted at row 6 (the spec
example); hypotheses of the second conjunct discharged with the empty
prefix. -/
theorem header_detection_spec_witness :
    (targetRows = [] ++ 6 :: [8, 5, 7, 9, 10]) ∧
    (∀ x ∈ ([] : List Nat), candidateOk
      ⟨List.replicate 7 [],
        fun r => if r = 6 then
          some ["Particulars", "April", "May", "June", "July", "August",
                "September", "October", "November"]
          else none⟩ x = false) ∧
    candidateOk
      ⟨List.replicate 7 [],
        fun r => if r = 6 then
          some ["Particulars", "April", "May", "June", "July", "August",
                "September", "October", "November"]
          else none⟩ 6 = true ∧
    detectHeaderRow
      ⟨List.replicate 7 [],
        fun r => if r = 6 then
          some ["Particulars", "April", "May", "June", "July", "August",
                "September", "October", "November"]
          else none⟩ = some 6 :=
  ⟨by decide, by decide, by decide,
    (header_detection_spec
      ⟨List.replicate 7 [],
        fun r => if r = 6 then
          some ["Particulars", "April", "May", "June", "July", "August",
                "September", "October", "November"]
          else none⟩ (fun _ => [])).2.1 [] 6 [8, 5, 7, 9, 10]
      (by decide) (by decide) (by decide)⟩

/-! ### Territory canonicalization (src/app.py 383-388, 429-446) -/

/-- The 19 canonical Kerala territory names, in the source's order. -/
def kerala_territories : List String :=
  ["TRIVANDRUM", "NEYYATINKARA", "KOLLAM", "PATHANAMTHITTA", "KOTTAYAM",
   "ALAPPUZHA", "IDUKKI", "MOOVATTUPUZHA", "ERNAMKULAM", "PALAKKAD",
   "THRISSUR", "EDAPAL", "MALAPPURAM", "KOZHIKODE CITY", "VADAKARA",
   "WAYANAD", "THALASSERY", "KANNUR", "KASARGOD"]

/-- The match test for one canonical territory against a raw area label
(src/app.py lines 430-446): explicit aliases for TRIVANDRUM, ERNAMKULAM,
KASARGOD and EDAPAL, else plain substring containment. -/
def territoryMatches (area_name kt : String) : Bool :=
  if kt = "TRIVANDRUM" &&
      (containsSub area_name "TRIVANDRUM" || containsSub area_name "TVM") then
    true
  else if kt = "ERNAMKULAM" && containsSub area_name "ERNAKULAM" then true
  else if kt = "KASARGOD" && containsSub area_name "KASARGODE" then true
  else if kt = "EDAPAL" && containsSub area_name "EDAPPAL" then true
  else containsSub area_name kt

/-- The canonicalization loop: the first territory of the fixed list that
matches wins; an unmatched label resolves to nothing (the source then
skips the row). -/
def canonicalizeTerritory (area_name : String) : Option String :=
  kerala_territories.find? (territoryMatches area_name)

/-- Claim C9: canonicalization is idempotent on the 19 canonical names;
any label containing TVM resolves to TRIVANDRUM, labels containing
ERNAKULAM / KASARGODE / EDAPPAL resolve to ERNAMKULAM / KASARGOD /
EDAPAL (shown at the spec's example labels), and in general the first
matching canonical name wins. -/
theorem canonicalize_spec :
    (∀ kt ∈ kerala_territories, canonicalizeTerritory kt = some kt) ∧
    (∀ s : String, containsSub s "TVM" = true →
      canonicalizeTerritory s = some "TRIVANDRUM") ∧
    canonicalizeTerritory "ERNAKULAM CITY" = some "ERNAMKULAM" ∧
    canonicalizeTerritory "KASARGODE" = some "KASARGOD" ∧
    canonicalizeTerritory "EDAPPAL" = some "EDAPAL" ∧
    (∀ (s : String) (pre : List String) (kt : String) (post : List String),
      kerala_territories = pre ++ kt :: post →
      (∀ x ∈ pre, territoryMatches s x = false) →
      territoryMatches s kt = true →
      canonicalizeTerritory s = some kt) := by
  refine ⟨by decide, ?_, by decide, by decide, by decide, ?_⟩
  · intro s hs
    have hm : territoryMatches s "TRIVANDRUM" = true := by
      unfold territoryMatches
      rw [if_pos]
      simp [hs]
    unfold canonicalizeTerritory kerala_territories
    rw [List.find?_cons_of_pos _ hm]
  · intro s pre kt post hsplit hpre hkt
    unfold canonicalizeTerritory
    rw [hsplit, find?_first (territoryMatches s) pre kt post hpre hkt]

/-- Witness for `canonicalize_spec`: the spec's example TVM SOUTH →
TRIVANDRUM, and the first-match conjunct at ERNAKULAM CITY. -/
theorem canonicalize_spec_witness :
    containsSub "TVM SOUTH" "TVM" = true ∧
    canonicalizeTerritory "TVM SOUTH" = some "TRIVANDRUM" :=
  ⟨by decide, canonicalize_spec.2.1 "TVM SOUTH" (by decide)⟩

/-! ### Monthly-comparison sheet parser (src/app.py 307-377)

An `MCRow` is one row of the sheet as read with header row 8: the first
cell's text and the month-column cells (modelled post
`pd.to_numeric(..., coerce)`, see the header comment).  The sheet's
column list `cols` models `df.columns`.
-/

structure MCRow where
  first : String
  cells : List (String × Option ℚ)
deriving DecidableEq

structure MCRec where
  area : String
  state : Option String
  fy : String
  monthName : String
  date : Option (Int × Nat)
  month : Nat
  sales : Option ℚ
  sourceSheet : String
deriving DecidableEq

/-- `area_patterns` (src/app.py line 317). -/
def areaPatterns : List String :=
  ["KERALA", "KARNATAKA", "TAMIL NADU", "OTHER STATES", "MSD INSIDE KERALA",
   "MSD OUTSIDE KERALA"]

/-- The fixed month-column names of the parser (src/app.py lines
323-324). -/
def mcMonthCols : List String :=
  ["APRIL", "MAY", "JUNE", "JULY", "AUGUST", "SEPTEMBER", "OCTOBER",
   "NOVEMBER", "DECEMBER", "JANUARY", "FEBRUARY", "MARCH"]

/-- The three state names of the `State` field rule (src/app.py
line 359). -/
def mcStateNames : List String := ["KERALA", "KARNATAKA", "TAMIL NADU"]

/-- `first_val = str(row.iloc[0]).strip().upper()` (src/app.py
line 327). -/
def rowFirstVal (r : MCRow) : String := strUpper (strStrip r.first)

/-- The area-cursor update (src/app.py lines 330-333): the first area
pattern contained in the row's first cell, else the cursor unchanged. -/
def updateArea (cur fv : String) : String :=
  (areaPatterns.find? (fun pat => containsSub fv pat)).getD cur

/-- `'-' in first_val and any(char.isdigit() ...)` (src/app.py
line 336). -/
def isYearDataRow (fv : String) : Bool := hasHyphen fv && hasDigit fv

/-- Record emission for one month column of a data row (src/app.py lines
340-366). -/
def mcEmitOne (cols : List String) (sheet area fv : String) (r : MCRow)
    (mcol : String) : Option MCRec :=
  if cols.contains mcol then
    match lookupCell r.cells mcol with
    | some v =>
      if v ≠ 0 then
        match monthsLookup (strLower mcol) with
        | some mnum =>
          some { area := area
                 state := if mcStateNames.contains area then some area else none
                 fy := fv
                 monthName := mcol
                 date := (to_fiscal_year_start fv).map (fun y => assembleDate y mnum)
                 month := mnum
                 sales := some v
                 sourceSheet := sheet }
        | none => none
      else none
    | none => none
  else none

/-- The row scan of `process_monthly_comparison_sheet` (src/app.py lines
326-366), carrying the current-area cursor. -/
def mcGo (cols : List String) (sheet : String) : String → List MCRow → List MCRec
  | _, [] => []
  | cur, r :: rs =>
    let fv := rowFirstVal r
    let cur2 := updateArea cur fv
    (if isYearDataRow fv then mcMonthCols.filterMap (mcEmitOne cols sheet cur2 fv r)
     else []) ++ mcGo cols sheet cur2 rs

/-- `process_monthly_comparison_sheet` (src/app.py lines 307-377): the
scan starts with the cursor at KERALA and the result drops records with
null sales. -/
def process_monthly_comparison (cols : List String) (sheet : String)
    (rows : List MCRow) : List MCRec :=
  (mcGo cols sheet "KERALA" rows).filter (fun rec => rec.sales.isSome)

/-- The cursor value after scanning a list of rows. -/
def mcCursor : String → List MCRow → String
  | cur, [] => cur
  | cur, r :: rs => mcCursor (updateArea cur (rowFirstVal r)) rs

lemma updateArea_of_no_marker (cur fv : String)
    (h : areaPatterns.find? (fun pat => containsSub fv pat) = none) :
    updateArea cur fv = cur := by
  unfold updateArea
  rw [h]
  rfl

lemma mcEmitOne_fields (cols : List String) (sheet area fv : String)
    (r : MCRow) (mcol : String) (rec : MCRec)
    (h : mcEmitOne cols sheet area fv r mcol = some rec) :
    rec.area = area ∧
    rec.state = (if mcStateNames.contains area then some area else none) := by
  unfold mcEmitOne at h
  split at h
  · split at h
    · split at h
      · split at h
        · cases h
          exact ⟨rfl, rfl⟩
        · exact absurd h (by simp)
      · exact absurd h (by simp)
    · exact absurd h (by simp)
  · exact absurd h (by simp)

lemma mcGo_append (cols : List String) (sheet : String) (P Q : List MCRow) :
    ∀ cur, mcGo cols sheet cur (P ++ Q) =
      mcGo cols sheet cur P ++ mcGo cols sheet (mcCursor cur P) Q := by
  induction P with
  | nil => intro cur; rfl
  | cons r rs ih =>
    intro cur
    simp only [List.cons_append, mcGo, mcCursor, List.append_eq]
    rw [ih (updateArea cur (rowFirstVal r)), List.append_assoc]

lemma mcCursor_const (P : List MCRow)
    (hP : ∀ r ∈ P, areaPatterns.find?
      (fun pat => containsSub (rowFirstVal r) pat) = none) :
    mcCursor "KERALA" P = "KERALA" := by
  induction P with
  | nil => rfl
  | cons r rs ih =>
    simp only [mcCursor]
    rw [updateArea_of_no_marker _ _ (hP r (List.mem_cons_self r rs))]
    exact ih (fun x hx => hP x (List.mem_cons_of_mem r hx))

/-- Claim C10: in the monthly-comparison parser the current-area cursor
starts at KERALA, so every fiscal-year data row appearing before the
first area-section marker emits its records with area KERALA and (KERALA
being one of the three state names) state KERALA, rather than being
skipped or given an unknown sentinel; the scan of the remaining rows
proceeds with the cursor still at KERALA. -/
theorem mc_initial_area_spec (cols : List String) (sheet : String)
    (P Q : List MCRow)
    (hP : ∀ r ∈ P, areaPatterns.find?
      (fun pat => containsSub (rowFirstVal r) pat) = none) :
    (∀ rec ∈ mcGo cols sheet "KERALA" P,
      rec.area = "KERALA" ∧ rec.state = some "KERALA") ∧
    process_monthly_comparison cols sheet (P ++ Q) =
      (mcGo cols sheet "KERALA" P ++ mcGo cols sheet "KERALA" Q).filter
        (fun rec => rec.sales.isSome) := by
  constructor
  · induction P with
    | nil => intro rec hrec; exact absurd hrec (by simp [mcGo])
    | cons r rs ih =>
      intro rec hrec
      simp only [mcGo] at hrec
      rw [updateArea_of_no_marker _ _ (hP r (List.mem_cons_self r rs))] at hrec
      rcases List.mem_append.mp hrec with hemit | htail
      · have hemit2 : rec ∈ mcMonthCols.filterMap
            (mcEmitOne cols sheet "KERALA" (rowFirstVal r) r) := by
          by_cases hdr : isYearDataRow (rowFirstVal r) = true
          · rwa [if_pos hdr] at hemit
          · rw [if_neg hdr] at hemit
            exact absurd hemit (by simp)
        obtain ⟨mcol, _, hone⟩ := List.mem_filterMap.mp hemit2
        have hf := mcEmitOne_fields cols sheet "KERALA" (rowFirstVal r) r
          mcol rec hone
        exact ⟨hf.1, by rw [hf.2]; rfl⟩
      · exact ih (fun x hx => hP x (List.mem_cons_of_mem r hx)) rec htail
  · unfold process_monthly_comparison
    rw [mcGo_append cols sheet P Q "KERALA", mcCursor_const P hP]

/-- Witness for `mc_initial_area_spec`: a sheet whose first row is
already a fiscal-year data row (no preceding area marker); its record is
emitted with area and state KERALA. -/
theorem mc_initial_area_spec_witness :
    (∀ r ∈ [(⟨"2018-2019", [("APRIL", some 5)]⟩ : MCRow)],
      areaPatterns.find? (fun pat => containsSub (rowFirstVal r) pat) = none) ∧
    ((∀ rec ∈ mcGo ["APRIL"] "MC" "KERALA"
        [(⟨"2018-2019", [("APRIL", some 5)]⟩ : MCRow)],
      rec.area = "KERALA" ∧ rec.state = some "KERALA") ∧
     process_monthly_comparison ["APRIL"] "MC"
        ([(⟨"2018-2019", [("APRIL", some 5)]⟩ : MCRow)] ++ []) =
      (mcGo ["APRIL"] "MC" "KERALA" [(⟨"2018-2019", [("APRIL", some 5)]⟩ : MCRow)] ++
        mcGo ["APRIL"] "MC" "KERALA" []).filter (fun rec => rec.sales.isSome)) :=
  ⟨by decide,
    mc_initial_area_spec ["APRIL"] "MC"
      [(⟨"2018-2019", [("APRIL", some 5)]⟩ : MCRow)] [] (by decide)⟩
